import Mathlib

/-!
Shallow embedding of the empire-fs file-system toolkit
(`src/efs`): the directory scan engine (`scan/scan.py`), the
synchronized multi-file reader (`io_/read_swarm.py`), and the
file-system facade (`file_system/_fs.py`), together with theorems
checking the specification's claims against the embedded code.
-/

namespace EmpireFs

/-! ### File-system model

A file's content is modelled as the list of strings that successive
`readline` calls return: each element is one line (normally ending in a
newline character, never empty — Python's `readline` returns the empty
string only at end of file).  The set of existing files is a list of
paths. -/

/-- Python `file.readline()` on a handle modelled as the list of
not-yet-consumed lines: returns the next line and the advanced handle,
or the empty string (Python's EOF marker) when exhausted. -/
def readlineStep : List String → String × List String
  | [] => ("", [])
  | l :: rest => (l, rest)

/-! ### `io_/read_swarm.py` — ReadSwarm -/

/-- State of `ReadSwarm`: `files` is the tuple of requested paths
(`self._files`), `fileHandles` is the insertion-ordered dict
`self._file_handles` mapping a path to its open handle (here: the list
of remaining lines).  The optional `container_type` only repackages the
tuple positionally, so records are kept as plain lists. -/
structure ReadSwarm where
  files : List String
  fileHandles : List (String × List String)
deriving Repr, DecidableEq

/-- Python dict insertion: if the key is present, its value is replaced
in place (keeping the key's original position); otherwise the pair is
appended at the end. -/
def dictInsert (k : String) (v : List String) : List (String × List String) → List (String × List String)
  | [] => [(k, v)]
  | (k0, v0) :: rest =>
      if k0 = k then (k, v) :: rest else (k0, v0) :: dictInsert k v rest

/-- `ReadSwarm.__init__(*files)`: records the file tuple with an empty
handle dict. -/
def ReadSwarm.init (files : List String) : ReadSwarm :=
  { files := files, fileHandles := [] }

/-- The loop of `ReadSwarm.open`:
`for f in self._files: self._file_handles[f] = open(f, "r")`.
`fs` maps a path to its content, `none` when the file does not exist (in
which case Python's `open` raises and the loop aborts). -/
def openLoop (fs : String → Option (List String)) (files0 : List String)
    (handles : List (String × List String)) : List String → Except String ReadSwarm
  | [] => .ok { files := files0, fileHandles := handles }
  | f :: rest =>
      match fs f with
      | none => .error "FileNotFoundError"
      | some content => openLoop fs files0 (dictInsert f content handles) rest

/-- `ReadSwarm.open`, iterating `openLoop` over the requested files
starting from the current handle dict. -/
def ReadSwarm.opn (fs : String → Option (List String)) (s : ReadSwarm) : Except String ReadSwarm :=
  openLoop fs s.files s.fileHandles s.files

/-- `ReadSwarm.read_line`: reads one `readline` result from every handle
in dict order, returns `None` when no slot is truthy (every slot is the
empty string), otherwise the tuple of slots; every handle advances. -/
def ReadSwarm.read_line (s : ReadSwarm) : Option (List String) × ReadSwarm :=
  let items := s.fileHandles.map (fun p => (readlineStep p.2).1)
  let s' : ReadSwarm :=
    { files := s.files, fileHandles := s.fileHandles.map (fun p => (p.1, (readlineStep p.2).2)) }
  if items.all (fun x => x = "") then (none, s') else (some items, s')

/-- The state transition of one `read_line` call (the advanced swarm,
discarding the returned record). -/
def readStep (s : ReadSwarm) : ReadSwarm :=
  s.read_line.2

/-- `ReadSwarm.close`: `for f in self._file_handles.values(): try: f.close() except: pass`.
`closeOp` models the host's fallible close call on one handle; both its
outcomes continue the loop. -/
def closeAll (closeOp : String × List String → Except String Unit) : List (String × List String) → Except String Unit
  | [] => .ok ()
  | h :: rest =>
      match closeOp h with
      | .ok _ => closeAll closeOp rest
      | .error _ => closeAll closeOp rest

/-- `ReadSwarm.close` over the whole swarm state: the handle dict is not
cleared, so a later `close` iterates the same handles again. -/
def ReadSwarm.close (closeOp : String × List String → Except String Unit) (s : ReadSwarm) : Except String ReadSwarm :=
  match closeAll closeOp s.fileHandles with
  | .ok _ => .ok s
  | .error e => .error e

/-! ### `file_system/_fs.py` -/

/-- `is_file(path)`: consults the file system; modelled over the list of
existing file paths. -/
def is_file (existing : List String) (path : String) : Bool :=
  existing.contains path

/-- `is_link(path)`: the body is literally `return False`; the
`linkStatus` argument stands for the real file system's symlink
information, which the function never consults. -/
def is_link (linkStatus : String → Bool) (path : String) : Bool :=
  false

/-- Splits a character list at the LAST occurrence of `c`: returns the
parts before and after it, or `none` when `c` is absent. -/
def splitAtLast (c : Char) : List Char → Option (List Char × List Char)
  | [] => none
  | x :: xs =>
      match splitAtLast c xs with
      | some (pre, post) => some (x :: pre, post)
      | none => if x = c then some ([], xs) else none

/-- Modelled from the spec: `efs.core.path_core.get_path_parts_and_extension`
is imported by `_fs.py` but the module `efs/core/path_core.py` is not in
the sources.  Per the spec it returns the fixed-arity tuple
(directory, base-name, extension), the extension being empty when the
file has none, and a leading dot-only name (a hidden file with no
further extension) is not misparsed as an empty base name with the dot
as extension; on `"a/b/c.txt"` it yields `("a/b", "c", "txt")`. -/
def get_path_parts_and_extension (p : String) : String × String × String :=
  let dirFile : List Char × List Char :=
    match splitAtLast '/' p.data with
    | some (d, f) => (d, f)
    | none => ([], p.data)
  let baseExt : List Char × List Char :=
    match splitAtLast '.' dirFile.2 with
    | some (b, e) => if b = [] then (dirFile.2, []) else (b, e)
    | none => (dirFile.2, [])
  (String.mk dirFile.1, String.mk baseExt.1, String.mk baseExt.2)

/-- Modelled from the spec: `efs.core.path_core.join` is imported by
`_fs.py` but the module `efs/core/path_core.py` is not in the sources.
Per the spec it concatenates segments with the host separator,
collapsing redundant separators; only the two-argument form is used by
`get_next_available_file_name`. -/
def join (a b : String) : String :=
  if a = "" then b
  else if a.data.getLast? = some '/' then a ++ b
  else a ++ "/" ++ b

/-- Python `range(start, stop, step)` for a positive step, as the list
of produced integers. -/
def pyRange (start stop step : Nat) : List Nat :=
  List.range' start ((stop - start + step - 1) / step) step

/-- The candidate built in the loop of `get_next_available_file_name`:
decomposing `path` into `(path_part, file_name_only, extension)`, the
candidate for integer `i` is
`join(path_part, f"(file_name_only)(separator)(i).(extension)")`
(the f-string always inserts the dot). -/
def nextNameCandidate (path separator : String) (i : Nat) : String :=
  let parts := get_path_parts_and_extension path
  join parts.1 (parts.2.1 ++ separator ++ toString i ++ "." ++ parts.2.2)

/-- `get_next_available_file_name(path, separator, start_integer, max_limit, step)`:
for `i` in `range(start_integer, max_limit, step)` returns the first
candidate that is not an existing file, and raises `OverflowError` when
the range is exhausted. -/
def get_next_available_file_name (existing : List String) (path : String)
    (separator : String := "") (start_integer : Nat := 0)
    (max_limit : Nat := 1000000) (step : Nat := 1) : Except String String :=
  match (pyRange start_integer max_limit step).find?
      (fun i => !is_file existing (nextNameCandidate path separator i)) with
  | some i => .ok (nextNameCandidate path separator i)
  | none => .error "OverflowError"

/-! ### `scan/scan.py` — directory scan engine

A directory tree is modelled inductively.  `errdir` marks a directory
on which `os.scandir` raises (permission denied, removed mid-scan, …);
its entry is still listed by the parent (and `is_dir()` answers true),
only descending into it fails.  A callback receives the entry's full
path, the is-directory flag and the raw entry's name (the part of the
`os.DirEntry` handle the predefined callbacks consult); the keyword
dictionary is a fixed closure argument and is left implicit. -/

inductive Entry where
  | file (name : String)
  | dir (name : String) (children : List Entry)
  | errdir (name : String)
deriving Repr

def Entry.name : Entry → String
  | .file n => n
  | .dir n _ => n
  | .errdir n => n

/-- `os.DirEntry.is_dir()` for an entry of the model. -/
def Entry.isDir : Entry → Bool
  | .file _ => false
  | .dir _ _ => true
  | .errdir _ => true

/-- A well-formed tree: every listable directory really is listable
(no `errdir` anywhere). -/
def Entry.wf : Entry → Bool
  | .file _ => true
  | .dir _ ch => ch.attach.all (fun e => Entry.wf e.1)
  | .errdir _ => false
termination_by e => sizeOf e
decreasing_by
  simp_wf
  have := List.sizeOf_lt_of_mem e.2
  omega

/-- `os.DirEntry.path`: the scanned directory's path joined with the
entry name by the host separator. -/
def childPath (p n : String) : String := p ++ "/" ++ n

/-- The body of `_recursion` in `scan_directory`, faithful to the
Python loop: `results = []`, then for every entry in order, first (when
`recursive` and the entry is a directory) extend with the recursive
results — a `scandir` failure there propagates as an exception, losing
the accumulator — then invoke the callback and append its result when
it is not `None`. -/
def scanE (cb : String → Bool → String → Option α) (recursive : Bool) :
    String → List α → List Entry → Except String (List α)
  | _, acc, [] => .ok acc
  | path, acc, .file n :: rest =>
      match cb (childPath path n) false n with
      | some r => scanE cb recursive path (acc ++ [r]) rest
      | none => scanE cb recursive path acc rest
  | path, acc, .dir n ch :: rest =>
      match (if recursive then scanE cb recursive (childPath path n) [] ch else .ok []) with
      | .error e => .error e
      | .ok sub =>
          match cb (childPath path n) true n with
          | some r => scanE cb recursive path (acc ++ sub ++ [r]) rest
          | none => scanE cb recursive path (acc ++ sub) rest
  | path, acc, .errdir n :: rest =>
      if recursive then .error "PermissionError"
      else
        match cb (childPath path n) true n with
        | some r => scanE cb recursive path (acc ++ [r]) rest
        | none => scanE cb recursive path acc rest
termination_by _ _ l => sizeOf l
decreasing_by all_goals (simp_wf; try omega)

/-- The default `on_entry_found_callback`, `lambda w, x, y, z: w`: emit
the entry's full path for every entry. -/
def defaultCallback : String → Bool → String → Option String :=
  fun entryPath _ _ => some entryPath

/-- `scan_directory(path, recursive, callback)` under its
`@catch(default_on_error_behavior=OnError.LOG)` decorator.  `root` is
what the file system holds at `rootPath`.  Modelled from the spec for
the external `empire_commons` decorator: a raised traversal error is
caught at the top level, logged, and a default value is returned (the
aborted call's local `results` lists are not reachable from there), so
the error outcome is `none`. -/
def scan_directory (cb : String → Bool → String → Option α) (recursive : Bool)
    (rootPath : String) (root : Entry) : Option (List α) :=
  match root with
  | .dir _ ch => (scanE cb recursive rootPath [] ch).toOption
  | .file _ => none
  | .errdir _ => none

/-- Declarative form of the traversal: each entry contributes its
subtree's results (when recursing into a directory) followed by its own
callback result when that is not the sentinel. -/
def scanPure (cb : String → Bool → String → Option α) (recursive : Bool) :
    String → List Entry → List α
  | _, [] => []
  | path, e :: rest =>
      (match e with
       | .file n => (cb (childPath path n) false n).toList
       | .dir n ch =>
           (if recursive then scanPure cb recursive (childPath path n) ch else []) ++
             (cb (childPath path n) true n).toList
       | .errdir n => (cb (childPath path n) true n).toList) ++
        scanPure cb recursive path rest
termination_by _ l => sizeOf l
decreasing_by all_goals (simp_wf; try omega)

/-! ### `scan/scan.py` — configurable callbacks -/

/-- Python's `str.endswith`: literal suffix comparison. -/
def pyEndsWith (s suffix : String) : Bool :=
  suffix.data.isSuffixOf s.data

/-- The callback produced by `ConfigurableCallbacks.file_extensions(*extensions)`:
returns the entry path on the first configured extension that is a
suffix of the entry NAME, else `None`. -/
def file_extensions (extensions : List String) :
    String → Bool → String → Option String :=
  fun entry_path _ name =>
    if extensions.any (fun ext => pyEndsWith name ext) then some entry_path else none

/-- An argument passed to `re.Pattern.match`: either a string or —
as in the source's `compiled_pattern.match(compiled_pattern)` — a
compiled pattern object. -/
inductive PyStrOrPattern where
  | str (s : String)
  | pat (p : String)

/-- `re.Pattern.match(arg)`: on a string argument the regex engine
(`engine compiled s`, left abstract) decides the anchored match; on a
pattern-object argument CPython raises `TypeError`. -/
def reMatch (engine : String → String → Bool) (compiled : String) :
    PyStrOrPattern → Except String Bool
  | .str s => .ok (engine compiled s)
  | .pat _ => .error "TypeError: expected string or bytes-like object"

/-- The callback produced by `ConfigurableCallbacks.match_pattern(pattern)`,
transcribing `if compiled_pattern.match(compiled_pattern): return entry_path`:
the compiled pattern itself — not the entry name — is what is passed to
`match`. -/
def match_pattern (engine : String → String → Bool) (pattern : String) :
    String → Bool → String → Except String (Option String) :=
  fun entry_path _ _name =>
    match reMatch engine pattern (.pat pattern) with
    | .error e => .error e
    | .ok true => .ok (some entry_path)
    | .ok false => .ok none

/-! ### Helper lemmas -/

/-- Closing every handle succeeds whatever the individual close calls
do: both arms of the try/except continue the loop. -/
theorem closeAll_ok (closeOp : String × List String → Except String Unit)
    (hs : List (String × List String)) : closeAll closeOp hs = .ok () := by
  induction hs with
  | nil => rfl
  | cons h rest ih =>
      unfold closeAll
      cases closeOp h <;> simpa using ih

/-- Well-formedness of a directory entry is well-formedness of every
child. -/
theorem wf_dir_iff (n : String) (ch : List Entry) :
    (Entry.dir n ch).wf = true ↔ ∀ e ∈ ch, e.wf = true := by
  rw [Entry.wf]
  simp only [List.all_eq_true]
  constructor
  · intro h e he
    exact h ⟨e, he⟩ (List.mem_attach _ _)
  · intro h x _
    exact h x.1 x.2

/-- Refinement of the accumulator loop of `_recursion` by the
declarative traversal `scanPure`: on a well-formed tree the loop
returns the accumulator followed by, for each entry in order, the
spliced recursive results of its subtree and then its own callback
result when that is not the sentinel. -/
theorem scanE_eq_pure (cb : String → Bool → String → Option α) (recursive : Bool)
    (path : String) (acc : List α) (l : List Entry)
    (hwf : ∀ e ∈ l, e.wf = true) :
    scanE cb recursive path acc l = .ok (acc ++ scanPure cb recursive path l) := by
  revert hwf
  induction path, acc, l using scanE.induct cb recursive with
  | case1 path acc =>
      intro _
      simp [scanE, scanPure]
  | case2 path acc n rest r hcb ih =>
      intro hwf
      have hrest : ∀ e ∈ rest, e.wf = true := fun e he => hwf e (List.mem_cons_of_mem _ he)
      have hstep : scanE cb recursive path acc (.file n :: rest) =
          scanE cb recursive path (acc ++ [r]) rest := by
        simp [scanE, hcb]
      rw [hstep, ih hrest]
      simp [scanPure, hcb]
  | case3 path acc n rest hcb ih =>
      intro hwf
      have hrest : ∀ e ∈ rest, e.wf = true := fun e he => hwf e (List.mem_cons_of_mem _ he)
      have hstep : scanE cb recursive path acc (.file n :: rest) =
          scanE cb recursive path acc rest := by
        simp [scanE, hcb]
      rw [hstep, ih hrest]
      simp [scanPure, hcb]
  | case4 path acc n ch rest e hif ih =>
      intro hwf
      have hch : ∀ e ∈ ch, e.wf = true :=
        (wf_dir_iff n ch).mp (hwf _ (List.mem_cons_self _ _))
      cases recursive with
      | false => simp at hif
      | true =>
          simp only [dite_true] at hif
          rw [ih hch] at hif
          exact absurd hif (by simp)
  | case5 path acc n ch rest sub hif r hcb ih2 ih1 =>
      intro hwf
      have hch : ∀ e ∈ ch, e.wf = true :=
        (wf_dir_iff n ch).mp (hwf _ (List.mem_cons_self _ _))
      have hrest : ∀ e ∈ rest, e.wf = true := fun e he => hwf e (List.mem_cons_of_mem _ he)
      cases recursive with
      | false =>
          simp at hif
          have hstep : scanE cb false path acc (.dir n ch :: rest) =
              scanE cb false path (acc ++ sub ++ [r]) rest := by
            simp [scanE, hcb, ← hif]
          rw [hstep, ih1 hrest]
          simp [scanPure, hcb, ← hif]
      | true =>
          simp only [dite_true] at hif
          have hsub : sub = scanPure cb true (childPath path n) ch := by
            have h2 := ih2 hch
            rw [hif] at h2
            simpa using h2
          have hstep : scanE cb true path acc (.dir n ch :: rest) =
              scanE cb true path (acc ++ sub ++ [r]) rest := by
            simp [scanE, hcb, hif]
          rw [hstep, ih1 hrest]
          simp [scanPure, hcb, hsub]
  | case6 path acc n ch rest sub hif hcb ih2 ih1 =>
      intro hwf
      have hch : ∀ e ∈ ch, e.wf = true :=
        (wf_dir_iff n ch).mp (hwf _ (List.mem_cons_self _ _))
      have hrest : ∀ e ∈ rest, e.wf = true := fun e he => hwf e (List.mem_cons_of_mem _ he)
      cases recursive with
      | false =>
          simp at hif
          have hstep : scanE cb false path acc (.dir n ch :: rest) =
              scanE cb false path (acc ++ sub) rest := by
            simp [scanE, hcb, ← hif]
          rw [hstep, ih1 hrest]
          simp [scanPure, hcb, ← hif]
      | true =>
          simp only [dite_true] at hif
          have hsub : sub = scanPure cb true (childPath path n) ch := by
            have h2 := ih2 hch
            rw [hif] at h2
            simpa using h2
          have hstep : scanE cb true path acc (.dir n ch :: rest) =
              scanE cb true path (acc ++ sub) rest := by
            simp [scanE, hcb, hif]
          rw [hstep, ih1 hrest]
          simp [scanPure, hcb, hsub]
  | case7 path acc n rest =>
      intro hwf
      have h := hwf _ (List.mem_cons_self _ _)
      simp [Entry.wf] at h
  | case8 path acc n rest hnr hcb ih =>
      intro hwf
      have h := hwf _ (List.mem_cons_self _ _)
      simp [Entry.wf] at h
  | case9 path acc n rest hnr hcb ih =>
      intro hwf
      have h := hwf _ (List.mem_cons_self _ _)
      simp [Entry.wf] at h

/-- The record of a `read_line` call: `none` when no slot is truthy,
otherwise the slots obtained by one `readline` per handle, in dict
order. -/
theorem read_line_fst (s : ReadSwarm) :
    s.read_line.1 =
      if (s.fileHandles.map (fun p => (readlineStep p.2).1)).all (fun x => x = "")
      then none
      else some (s.fileHandles.map (fun p => (readlineStep p.2).1)) := by
  unfold ReadSwarm.read_line
  by_cases h : (s.fileHandles.map (fun p => (readlineStep p.2).1)).all (fun x => x = "") = true
  · simp [h]
  · simp [h]

/-- The state after a `read_line` call: every handle advanced by one
`readline`, keys untouched. -/
theorem read_line_snd (s : ReadSwarm) :
    s.read_line.2 =
      { files := s.files,
        fileHandles := s.fileHandles.map (fun p => (p.1, (readlineStep p.2).2)) } := by
  unfold ReadSwarm.read_line
  by_cases h : (s.fileHandles.map (fun p => (readlineStep p.2).1)).all (fun x => x = "") = true
  · simp [h]
  · simp [h]

/-- Inserting a fresh key into the handle dict appends it at the
end. -/
theorem dictInsert_of_not_mem (k : String) (v : List String)
    (hs : List (String × List String)) (h : ∀ p ∈ hs, p.1 ≠ k) :
    dictInsert k v hs = hs ++ [(k, v)] := by
  induction hs with
  | nil => rfl
  | cons p rest ih =>
      unfold dictInsert
      rw [if_neg (h p (List.mem_cons_self _ _))]
      rw [ih (fun q hq => h q (List.mem_cons_of_mem _ hq))]
      rfl

/-- The open loop over distinct, existing files appends one handle per
file, in the order the files are listed. -/
theorem openLoop_ok (fs : String → Option (List String)) (files0 : List String) :
    ∀ (fl : List String) (handles : List (String × List String)),
      (∀ f ∈ fl, (fs f).isSome = true) →
      (∀ f ∈ fl, ∀ p ∈ handles, p.1 ≠ f) →
      fl.Nodup →
      openLoop fs files0 handles fl =
        .ok { files := files0,
              fileHandles := handles ++ fl.map (fun f => (f, (fs f).getD [])) } := by
  intro fl
  induction fl with
  | nil =>
      intro handles _ _ _
      simp [openLoop]
  | cons f rest ih =>
      intro handles hex hdisj hnd
      obtain ⟨c, hc⟩ := Option.isSome_iff_exists.mp (hex f (List.mem_cons_self _ _))
      have hnd' := List.nodup_cons.mp hnd
      unfold openLoop
      simp only [hc]
      rw [dictInsert_of_not_mem f c handles (fun p hp => hdisj f (List.mem_cons_self _ _) p hp)]
      rw [ih (handles ++ [(f, c)])
            (fun g hg => hex g (List.mem_cons_of_mem _ hg))
            (fun g hg p hp => by
              rcases List.mem_append.mp hp with h1 | h1
              · exact hdisj g (List.mem_cons_of_mem _ hg) p h1
              · have hp1 : p = (f, c) := by simpa using h1
                rw [hp1]
                exact fun hfg => hnd'.1 (by
                  have hfg2 : f = g := hfg
                  rw [hfg2]
                  exact hg))
            hnd'.2]
      simp [hc]

/-! ### Claims -/

/-- C10: for every input path `is_link` returns `False`, whatever the
real file system's symlink information says (in particular for an
existing symbolic link); the function never consults the file
system. -/
theorem is_link_always_false (linkStatus : String → Bool) (path : String) :
    is_link linkStatus path = false :=
  rfl

/-- C9: `ReadSwarm.close` never raises: for every fallible per-handle
close operation and every swarm state (before open, after open, or
after any number of earlier closes — the state is returned unchanged,
so repeated calls see the same handles), the call succeeds, swallowing
every individual close failure. -/
theorem readswarm_close_never_raises (closeOp : String × List String → Except String Unit)
    (s : ReadSwarm) : s.close closeOp = .ok s := by
  unfold ReadSwarm.close
  rw [closeAll_ok]

/-- C4 (code evaluated at the failing input): the callback returned by
`ConfigurableCallbacks.match_pattern` passes the compiled pattern
itself — not the entry name — to `re.Pattern.match`, so for every
regex engine, pattern and directory entry it raises `TypeError` instead
of emitting the entry path on a name match. -/
theorem match_pattern_raises_typeerror (engine : String → String → Bool)
    (pattern entry_path : String) (d : Bool) (name : String) :
    match_pattern engine pattern entry_path d name =
      .error "TypeError: expected string or bytes-like object" :=
  rfl

/-- C1 (counterexample): scanning the directory with entries x.txt,
y.log and subdirectory sub non-recursively with the default callback
does NOT yield only the results for x.txt and y.log: the directory
entry sub is emitted as well, since the default callback emits every
entry, file or directory. -/
theorem scan_nonrecursive_default_emits_directory :
    scan_directory defaultCallback false "/r"
        (.dir "r" [.file "x.txt", .file "y.log", .dir "sub" [.file "z.txt"]]) =
      some ["/r/x.txt", "/r/y.log", "/r/sub"] ∧
    ("/r/sub" : String) ∉ (["/r/x.txt", "/r/y.log"] : List String) := by
  constructor
  · have h : scanE defaultCallback false "/r" ([] : List String)
        [.file "x.txt", .file "y.log", .dir "sub" [.file "z.txt"]] =
        .ok ["/r/x.txt", "/r/y.log", "/r/sub"] := by
      simp [scanE, defaultCallback, childPath]
    show (scanE defaultCallback false "/r" ([] : List String)
        [.file "x.txt", .file "y.log", .dir "sub" [.file "z.txt"]]).toOption =
      some ["/r/x.txt", "/r/y.log", "/r/sub"]
    rw [h]
    rfl
  · decide

/-- C1 (amended): on the directory with entries x.txt, y.log and
subdirectory sub holding z.txt, the default-callback scan yields
non-recursively the results for x.txt, y.log AND the directory sub (in
scandir order), and recursively the results for all three files and
the directory, with sub/z.txt spliced immediately before sub's own
emission. -/
theorem scan_default_example_all_entries :
    scan_directory defaultCallback false "/r"
        (.dir "r" [.file "x.txt", .file "y.log", .dir "sub" [.file "z.txt"]]) =
      some ["/r/x.txt", "/r/y.log", "/r/sub"] ∧
    scan_directory defaultCallback true "/r"
        (.dir "r" [.file "x.txt", .file "y.log", .dir "sub" [.file "z.txt"]]) =
      some ["/r/x.txt", "/r/y.log", "/r/sub/z.txt", "/r/sub"] := by
  constructor
  · have h : scanE defaultCallback false "/r" ([] : List String)
        [.file "x.txt", .file "y.log", .dir "sub" [.file "z.txt"]] =
        .ok ["/r/x.txt", "/r/y.log", "/r/sub"] := by
      simp [scanE, defaultCallback, childPath]
    show (scanE defaultCallback false "/r" ([] : List String)
        [.file "x.txt", .file "y.log", .dir "sub" [.file "z.txt"]]).toOption =
      some ["/r/x.txt", "/r/y.log", "/r/sub"]
    rw [h]
    rfl
  · have h : scanE defaultCallback true "/r" ([] : List String)
        [.file "x.txt", .file "y.log", .dir "sub" [.file "z.txt"]] =
        .ok ["/r/x.txt", "/r/y.log", "/r/sub/z.txt", "/r/sub"] := by
      simp [scanE, defaultCallback, childPath]
    show (scanE defaultCallback true "/r" ([] : List String)
        [.file "x.txt", .file "y.log", .dir "sub" [.file "z.txt"]]).toOption =
      some ["/r/x.txt", "/r/y.log", "/r/sub/z.txt", "/r/sub"]
    rw [h]
    rfl

/-- C2: with `recursive` set, on every well-formed directory tree and
for every callback, `scan_directory` returns exactly the declarative
splice `scanPure`: each entry contributes its subtree's recursive
results, in traversal order, strictly before its own callback result,
and a callback result is appended if and only if it is not the
no-match sentinel. -/
theorem scan_directory_recursive_splice (cb : String → Bool → String → Option α)
    (rootPath n : String) (ch : List Entry) (hwf : ∀ e ∈ ch, e.wf = true) :
    scan_directory cb true rootPath (.dir n ch) = some (scanPure cb true rootPath ch) := by
  show (scanE cb true rootPath [] ch).toOption = some (scanPure cb true rootPath ch)
  rw [scanE_eq_pure cb true rootPath [] ch hwf]
  rfl

/-- Witness for C2 at a concrete two-level tree. -/
theorem scan_directory_recursive_splice_witness :
    scan_directory defaultCallback true "/r"
        (.dir "r" [.file "x.txt", .dir "sub" [.file "z.txt"]]) =
      some (scanPure defaultCallback true "/r" [.file "x.txt", .dir "sub" [.file "z.txt"]]) :=
  scan_directory_recursive_splice defaultCallback "/r" "r"
    [.file "x.txt", .dir "sub" [.file "z.txt"]] (by
      intro e he
      simp only [List.mem_cons, List.not_mem_nil, or_false] at he
      rcases he with h | h
      · subst h; simp [Entry.wf]
      · subst h
        rw [wf_dir_iff]
        intro e he
        simp only [List.mem_cons, List.not_mem_nil, or_false] at he
        subst he
        simp [Entry.wf])

/-- C3 (counterexample): with the default error policy, a traversal
error midway (a subdirectory on which scandir raises, reached after
the file a.txt was already accumulated) makes `scan_directory` return
the decorator's default `none`, not the partial result sequence
accumulated before the failure. -/
theorem scan_error_discards_partial :
    scan_directory defaultCallback true "/r" (.dir "r" [.file "a.txt", .errdir "bad"]) =
      none ∧
    (none : Option (List String)) ≠ some ["/r/a.txt"] := by
  constructor
  · have h : scanE defaultCallback true "/r" ([] : List String)
        [.file "a.txt", .errdir "bad"] = .error "PermissionError" := by
      simp [scanE, defaultCallback, childPath]
    show (scanE defaultCallback true "/r" ([] : List String)
        [.file "a.txt", .errdir "bad"]).toOption = none
    rw [h]
    rfl
  · decide

/-- C3 (amended): under the default error policy a traversal error at
any point during the scan does not escape `scan_directory` — the
decorator catches it — but the call returns the error default `none`,
discarding the partial results accumulated inside the aborted
recursion, rather than returning them. -/
theorem scan_directory_error_returns_default (cb : String → Bool → String → Option α)
    (recursive : Bool) (rootPath n : String) (ch : List Entry) (e : String)
    (herr : scanE cb recursive rootPath [] ch = .error e) :
    scan_directory cb recursive rootPath (.dir n ch) = none := by
  show (scanE cb recursive rootPath [] ch).toOption = none
  rw [herr]
  rfl

/-- Witness for C3 (amended) at a concrete failing tree. -/
theorem scan_directory_error_returns_default_witness :
    scan_directory defaultCallback true "/r" (.dir "r" [.file "a.txt", .errdir "bad"]) =
      (none : Option (List String)) :=
  scan_directory_error_returns_default defaultCallback true "/r" "r"
    [.file "a.txt", .errdir "bad"] "PermissionError" (by
      simp [scanE, defaultCallback, childPath])

/-- C5: every `read_line` call reads one `readline` result per open
handle in the fixed order of the handle dict; a handle at its own end
of file contributes the empty-string placeholder to its slot without
failing the call; the overall result is absent exactly when every slot
is simultaneously the placeholder; in particular over two files of 3
and 2 lines the four successive calls return (line, line), (line,
line), (line3, placeholder) and then the absent overall result. -/
theorem read_line_lockstep :
    (∀ (s : ReadSwarm), (∀ p ∈ s.fileHandles, ∀ l ∈ p.2, l ≠ "") →
        ((s.read_line.1 = none ↔ ∀ p ∈ s.fileHandles, p.2 = []) ∧
         (s.read_line.1 = none ∨
          s.read_line.1 = some (s.fileHandles.map (fun p => (readlineStep p.2).1))))) ∧
    ((ReadSwarm.read_line
        { files := ["f1", "f2"],
          fileHandles := [("f1", ["a\n", "b\n", "c\n"]), ("f2", ["d\n", "e\n"])] }).1 =
      some ["a\n", "d\n"] ∧
     (ReadSwarm.read_line (readStep
        { files := ["f1", "f2"],
          fileHandles := [("f1", ["a\n", "b\n", "c\n"]), ("f2", ["d\n", "e\n"])] })).1 =
      some ["b\n", "e\n"] ∧
     (ReadSwarm.read_line (readStep (readStep
        { files := ["f1", "f2"],
          fileHandles := [("f1", ["a\n", "b\n", "c\n"]), ("f2", ["d\n", "e\n"])] }))).1 =
      some ["c\n", ""] ∧
     (ReadSwarm.read_line (readStep (readStep (readStep
        { files := ["f1", "f2"],
          fileHandles := [("f1", ["a\n", "b\n", "c\n"]), ("f2", ["d\n", "e\n"])] })))).1 =
      none) := by
  constructor
  · intro s h
    constructor
    · rw [read_line_fst]
      by_cases hall : (s.fileHandles.map (fun p => (readlineStep p.2).1)).all
          (fun x => x = "") = true
      · rw [if_pos hall]
        constructor
        · intro _ p hp
          cases hp2 : p.2 with
          | nil => rfl
          | cons l tl =>
              exfalso
              have hempty := List.all_eq_true.mp hall _
                (List.mem_map_of_mem (fun p => (readlineStep p.2).1) hp)
              rw [hp2] at hempty
              simp [readlineStep] at hempty
              exact h p hp l (by rw [hp2]; exact List.mem_cons_self _ _) hempty
        · intro _
          rfl
      · rw [if_neg hall]
        refine iff_of_false (by simp) ?_
        intro hempty
        apply hall
        apply List.all_eq_true.mpr
        intro x hx
        obtain ⟨p, hp, rfl⟩ := List.mem_map.mp hx
        rw [hempty p hp]
        rfl
    · rw [read_line_fst]
      by_cases hall : (s.fileHandles.map (fun p => (readlineStep p.2).1)).all
          (fun x => x = "") = true
      · rw [if_pos hall]
        left
        rfl
      · rw [if_neg hall]
        right
        rfl
  · refine ⟨by decide, by decide, by decide, by decide⟩

/-- Witness for C5 (general part) at a one-file swarm. -/
theorem read_line_lockstep_witness :
    ((ReadSwarm.read_line { files := ["f1"], fileHandles := [("f1", ["a\n"])] }).1 = none ↔
      ∀ p ∈ ({ files := ["f1"], fileHandles := [("f1", ["a\n"])] } : ReadSwarm).fileHandles,
        p.2 = []) ∧
    ((ReadSwarm.read_line { files := ["f1"], fileHandles := [("f1", ["a\n"])] }).1 = none ∨
     (ReadSwarm.read_line { files := ["f1"], fileHandles := [("f1", ["a\n"])] }).1 =
       some ((({ files := ["f1"], fileHandles := [("f1", ["a\n"])] } : ReadSwarm).fileHandles).map
         (fun p => (readlineStep p.2).1))) :=
  read_line_lockstep.1 { files := ["f1"], fileHandles := [("f1", ["a\n"])] } (by decide)

/-- C6 (counterexample): a `ReadSwarm` over a duplicated file path
opens fewer handles than the number of requested files — the handle
dict is keyed by path, so the duplicate collapses onto one slot. -/
theorem readswarm_open_duplicate_collapse :
    (ReadSwarm.init ["a", "a"]).opn (fun _ => some ["x\n"]) =
      .ok { files := ["a", "a"], fileHandles := [("a", ["x\n"])] } ∧
    ¬ (([("a", ["x\n"])] : List (String × List String)).length =
        (["a", "a"] : List String).length) := by
  exact ⟨rfl, by decide⟩

/-- C6 (amended): for pairwise-distinct file paths that all exist,
`open()` succeeds with exactly one handle per requested file, bound to
that file's content and listed in the order the files were specified;
and every `read_line` call reads the handles in that same fixed order
(the record, when present, is the per-handle readline map) while
preserving the key order for all later calls, so slot i of every
produced record comes from file i. -/
theorem readswarm_open_fixed_order (fs : String → Option (List String))
    (files : List String) (h1 : files.Nodup)
    (h2 : ∀ f ∈ files, (fs f).isSome = true) :
    (ReadSwarm.init files).opn fs =
      .ok { files := files, fileHandles := files.map (fun f => (f, (fs f).getD [])) } ∧
    (files.map (fun f => (f, (fs f).getD []))).length = files.length ∧
    (∀ s : ReadSwarm, s.fileHandles.map Prod.fst = files →
       ((readStep s).fileHandles.map Prod.fst = files ∧
        (s.read_line.1 = none ∨
         s.read_line.1 = some (s.fileHandles.map (fun p => (readlineStep p.2).1))))) := by
  refine ⟨?_, by simp, ?_⟩
  · show openLoop fs files [] files = _
    exact openLoop_ok fs files files [] h2 (fun f _ p hp => absurd hp (List.not_mem_nil p)) h1
  · intro s hkeys
    constructor
    · rw [readStep, read_line_snd]
      simp only [List.map_map]
      rw [← hkeys]
      rfl
    · rw [read_line_fst]
      by_cases hall : (s.fileHandles.map (fun p => (readlineStep p.2).1)).all
          (fun x => x = "") = true
      · rw [if_pos hall]
        left
        rfl
      · rw [if_neg hall]
        right
        rfl

/-- Witness for C6 (amended) at two distinct files. -/
theorem readswarm_open_fixed_order_witness :
    (ReadSwarm.init ["u", "v"]).opn (fun _ => some ["1\n"]) =
      .ok { files := ["u", "v"], fileHandles := [("u", ["1\n"]), ("v", ["1\n"])] } :=
  (readswarm_open_fixed_order (fun _ => some ["1\n"]) ["u", "v"] (by decide)
    (by decide)).1

/-- C7: `get_next_available_file_name` never returns the name of an
existing file; with files f.txt, f0.txt, f1.txt existing (under
directory d) and default parameters it returns d/f2.txt; with
`start_integer = 5` and `step = 2` it returns the first of the
candidates numbered 5, 7, 9, … not already present (here g5 is taken,
so g7); and it raises `OverflowError` when the integer range is
exhausted at `max_limit` before a free name is found. -/
theorem get_next_available_file_name_spec :
    (∀ (existing : List String) (path sep : String) (start maxl step : Nat) (c : String),
        get_next_available_file_name existing path sep start maxl step = .ok c →
        is_file existing c = false) ∧
    get_next_available_file_name ["d/f.txt", "d/f0.txt", "d/f1.txt"] "d/f.txt" =
      .ok "d/f2.txt" ∧
    get_next_available_file_name ["d/g.txt", "d/g5.txt"] "d/g.txt" "" 5 1000000 2 =
      .ok "d/g7.txt" ∧
    get_next_available_file_name ["d/h.txt", "d/h0.txt", "d/h1.txt"] "d/h.txt" "" 0 2 1 =
      .error "OverflowError" := by
  refine ⟨?_, by exact rfl, by exact rfl, by exact rfl⟩
  intro existing path sep start maxl step c h
  unfold get_next_available_file_name at h
  cases hfind : (pyRange start maxl step).find?
      (fun i => !is_file existing (nextNameCandidate path sep i)) with
  | none =>
      rw [hfind] at h
      simp at h
  | some i =>
      rw [hfind] at h
      simp only [Except.ok.injEq] at h
      have hfree := List.find?_some hfind
      rw [← h]
      simpa using hfree

/-- Witness for C7 (general part): the name returned for the f.txt
family is not an existing file. -/
theorem get_next_available_file_name_spec_witness :
    is_file ["d/f.txt", "d/f0.txt", "d/f1.txt"] "d/f2.txt" = false :=
  get_next_available_file_name_spec.1 ["d/f.txt", "d/f0.txt", "d/f1.txt"] "d/f.txt" ""
    0 1000000 1 "d/f2.txt" (by exact rfl)

/-- C8: the callback returned by
`ConfigurableCallbacks.file_extensions` emits the entry's full path if
and only if one of the configured extensions is a literal suffix of
the entry's NAME, and emits the no-match sentinel otherwise; in
particular with extensions .txt and .md it emits exactly a.txt and
b.md out of a.txt, b.md, c.py, and a suffix occurring only in the full
path (not the name) does not match. -/
theorem file_extensions_suffix_match (extensions : List String) (entry_path : String)
    (d : Bool) (name : String) :
    (file_extensions extensions entry_path d name = some entry_path ↔
      ∃ ext ∈ extensions, ext.data <:+ name.data) ∧
    (file_extensions extensions entry_path d name = none ↔
      ¬ ∃ ext ∈ extensions, ext.data <:+ name.data) ∧
    file_extensions [".txt", ".md"] "/d/a.txt" false "a.txt" = some "/d/a.txt" ∧
    file_extensions [".txt", ".md"] "/d/b.md" false "b.md" = some "/d/b.md" ∧
    file_extensions [".txt", ".md"] "/d/c.py" false "c.py" = none ∧
    file_extensions [".txt"] "/d.txt/c" false "c" = none := by
  have hcond : extensions.any (fun ext => pyEndsWith name ext) = true ↔
      ∃ ext ∈ extensions, ext.data <:+ name.data := by
    rw [List.any_eq_true]
    constructor
    · rintro ⟨ext, hm, hp⟩
      refine ⟨ext, hm, ?_⟩
      have hp2 : ext.data.isSuffixOf name.data = true := hp
      exact List.isSuffixOf_iff_suffix.mp hp2
    · rintro ⟨ext, hm, hs⟩
      refine ⟨ext, hm, ?_⟩
      show ext.data.isSuffixOf name.data = true
      exact List.isSuffixOf_iff_suffix.mpr hs
  refine ⟨?_, ?_, by decide, by decide, by decide, by decide⟩
  · unfold file_extensions
    by_cases hc : extensions.any (fun ext => pyEndsWith name ext) = true
    · rw [if_pos hc]
      exact iff_of_true rfl (hcond.mp hc)
    · rw [if_neg hc]
      exact iff_of_false (by simp) (fun hex => hc (hcond.mpr hex))
  · unfold file_extensions
    by_cases hc : extensions.any (fun ext => pyEndsWith name ext) = true
    · rw [if_pos hc]
      exact iff_of_false (by simp) (fun hnex => hnex (hcond.mp hc))
    · rw [if_neg hc]
      exact iff_of_true rfl (fun hex => hc (hcond.mpr hex))

end EmpireFs
